import Mathlib

/-!
# Verification of the `IamYousef/red-black-tree` repository

Shallow embedding of the Python sources `hades_the_god.py`, `ma_node.py` and
`ma_tree.py` (a red-black tree with insertion and recoloring), together with
theorems settling the specification claims.

Modelling conventions:

* Python numbers are modelled by `Int` (the sources accept `int`/`float`; all
  claims are settled on integer inputs).  The dynamic Python value universe
  relevant to the claims is `PyVal`: `None`, an `int`, a `str`, and an `RBT`
  instance used as an element (`vtreeObj`, an opaque object marker).
* A raised Python exception is an `Err` value; operations that both mutate and
  can raise return the raised error (or the normal result) *paired with the
  mutated state*, since Python mutations performed before a `raise` persist.
* `BasicNode` objects form a pointer structure in which `set_left`/`set_right`
  keep each `_parent` field the exact inverse of the child link; the rotation
  primitives — the only operations that would break this — never complete
  (see `rotate_left` below).  Hence a reachable tree is faithfully represented
  by the inductive `NTree`, and a node reference by the path from the root to
  the node.  Paths handed to the recoloring procedure are stored innermost
  first (`RPath`), because `_recolor` walks from the node towards the root.
-/

/-- Python values that can flow through `RBT.insert` in the claims:
`None`, an `int` (also standing for `float`), a `str`, and an `RBT()` instance
used as an element. `BasicNode` values are covered by the tree model itself. -/
inductive PyVal where
  | vnone : PyVal
  | vint : Int → PyVal
  | vstr : String → PyVal
  | vtreeObj : PyVal
  deriving DecidableEq, Repr

/-- Python exceptions raised by the modelled code paths. -/
inductive Err where
  | valueError : Err
  | typeError : Err
  | assertionError : Err
  | attributeError : Err
  deriving DecidableEq, Repr

/-- `Color` from `ma_node.py` (lines 6-14): BLACK = 0, RED = 1. -/
inductive Color where
  | black : Color
  | red : Color
  deriving DecidableEq, Repr

/-- A `BasicNode` pointer structure rooted at some node: `_data`, `_color`,
`_left`, `_right` (`nil` models Python `None`).  The `_parent` back-references
are represented implicitly: a node is addressed by its path from the root. -/
inductive NTree where
  | nil : NTree
  | node : PyVal → Color → NTree → NTree → NTree
  deriving DecidableEq, Repr

/-- A direction taken when descending from a parent to a child. -/
inductive Dir where
  | L : Dir
  | R : Dir
  deriving DecidableEq, Repr

/-- Python `x == y` on the modelled values: equal ints/strings compare equal,
cross-type comparisons are `False` (no exception), distinct plain objects
compare by identity (modelled `False`). -/
def pyEq : PyVal → PyVal → Bool
  | .vnone, .vnone => true
  | .vint a, .vint b => a == b
  | .vstr a, .vstr b => a == b
  | _, _ => false

/-- Python `x < y` on the modelled values: defined for `int`/`int` and
`str`/`str`; every other combination raises `TypeError`. -/
def pyLt : PyVal → PyVal → Except Err Bool
  | .vint a, .vint b => .ok (decide (a < b))
  | .vstr a, .vstr b => .ok (decide (a < b))
  | _, _ => .error .typeError

/-- Python `x > y` on the modelled values (`a > b` agrees with `b < a` for the
ints and strings that can appear here). -/
def pyGt (a b : PyVal) : Except Err Bool := pyLt b a

/-- `HouseOfHades.adjudging` (`hades_the_god.py` lines 6-14): raise
`ValueError` on `None`, raise `TypeError` when the value is an instance of
`HouseOfHades`.  `BasicNode` subclasses `HouseOfHades`, but `RBT` does *not*,
so an `RBT` instance passes this check. -/
def adjudging : PyVal → Except Err Unit
  | .vnone => .error .valueError
  | .vtreeObj => .ok ()
  | _ => .ok ()

namespace NTree

/-- The subtree reached by following a root-first path (`nil` if the path
walks off the tree). -/
def sub : NTree → List Dir → NTree
  | t, [] => t
  | nil, _ => nil
  | node _ _ l _, .L :: p => l.sub p
  | node _ _ _ r, .R :: p => r.sub p

/-- `set_color` applied to the node at a root-first path (identity when the
path misses). -/
def setColorAt : NTree → List Dir → Color → NTree
  | nil, _, _ => nil
  | node d _ l r, [], c => node d c l r
  | node d c0 l r, .L :: p, c => node d c0 (l.setColorAt p c) r
  | node d c0 l r, .R :: p, c => node d c0 l (r.setColorAt p c)

/-- The `_data` of the node at a path, if any. -/
def dataAt (t : NTree) (p : List Dir) : Option PyVal :=
  match t.sub p with
  | nil => none
  | node d _ _ _ => some d

/-- The `_color` of the node at a path, if any. -/
def colorAt (t : NTree) (p : List Dir) : Option Color :=
  match t.sub p with
  | nil => none
  | node _ c _ _ => some c

end NTree

/-- A node reference held by `_recolor`: the path from the root to the node,
stored innermost first (so the parent's path is the tail). -/
abbrev RPath := List Dir

/-- The subtree at a reversed (innermost-first) path. -/
def NTree.subR (t : NTree) (rp : RPath) : NTree := t.sub rp.reverse

/-- `set_color` at a reversed (innermost-first) path. -/
def NTree.setColorAtR (t : NTree) (rp : RPath) (c : Color) : NTree :=
  t.setColorAt rp.reverse c

/-- The `RBT` object state: `self.root`, `self._length`, plus the list of
values reported by `warnings.warn` (non-fatal duplicate warnings). -/
structure RBTState where
  root : NTree
  length : Nat
  warnings : List PyVal
  deriving DecidableEq, Repr

/-- `RBT.__init__` with no iterable (`ma_tree.py` lines 71-72):
`self.root = None`, `self._length = 0`. -/
def initState : RBTState := ⟨.nil, 0, []⟩

/-- `RBT.is_empty` (`ma_tree.py` line 478): `return self.root is None`. -/
def RBTState.is_empty (s : RBTState) : Bool :=
  match s.root with
  | .nil => true
  | .node _ _ _ _ => false

/-- `RBT._insert_node` (`ma_tree.py` lines 83-135), run on the subtree rooted
at `start_node`, where `inserted_node` is the fresh RED node holding `v` built
by `_insert_numeric`.  Returns the updated subtree, the root-first path of the
node the source returns (the existing node on an equal hit, otherwise the
newly attached node), whether `self._length += 1` ran, and whether
`warnings.warn` ran.  The `nil` case models the failing
`assert isinstance(start_node, self._basic_node)`; comparing `v` against a
non-number `_data` raises `TypeError` from the Python `<` (`pyLt`). -/
def insert_node : NTree → PyVal → Except Err (NTree × List Dir × Bool × Bool)
  | .nil, _ => .error .assertionError
  | .node d c l r, v =>
    match pyEq v d with
    | true =>
      -- value == start_node.get_data(): warn, return start_node
      .ok (.node d c l r, [], false, true)
    | false =>
      match pyLt v d with
      | .error e => .error e
      | .ok true =>
        match l with
        | .nil =>
          -- start_node.set_left(inserted_node); self._length += 1
          .ok (.node d c (.node v .red .nil .nil) r, [.L], true, false)
        | .node _ _ _ _ =>
          match insert_node l v with
          | .error e => .error e
          | .ok (l', p, inc, w) => .ok (.node d c l' r, .L :: p, inc, w)
      | .ok false =>
        match r with
        | .nil =>
          -- start_node.set_right(inserted_node); self._length += 1
          .ok (.node d c l (.node v .red .nil .nil), [.R], true, false)
        | .node _ _ _ _ =>
          match insert_node r v with
          | .error e => .error e
          | .ok (r', p, inc, w) => .ok (.node d c l r', .R :: p, inc, w)

/-- `RBT._rotate_left` (`ma_tree.py` lines 248-289).  After
`middle = start_node.get_right()`, line 286 runs
`middle.set_parent(start_node.get_parent())` — but `BasicNode` (`ma_node.py`)
defines no `set_parent` method (and `None` has none either), so the call
raises `AttributeError` before any link is changed.  The `nil` case models the
failing `assert isinstance(start_node, self._basic_node)`. -/
def rotate_left : NTree → Except Err NTree
  | .nil => .error .assertionError
  | .node _ _ _ _ => .error .attributeError

/-- `RBT._rotate_right` (`ma_tree.py` lines 291-332).  Symmetric to
`rotate_left`: line 329 runs `middle.set_parent(...)` on a `BasicNode` (or
`None`) with no such method, raising `AttributeError` before any link is
changed. -/
def rotate_right : NTree → Except Err NTree
  | .nil => .error .assertionError
  | .node _ _ _ _ => .error .attributeError

/-- `RBT.__recolor_case3` (`ma_tree.py` lines 335-389), on the node at the
innermost-first path `rp`.  `is_left_child` (`ma_node.py` line 250) compares
values: `self._parent.get_data() > self.get_data()`.  Every branch reaches a
rotation, and both rotations raise `AttributeError` unconditionally (no
`set_parent` method), so the procedure always raises; it returns the raised
error together with the tree as mutated so far (the left-left and right-right
branches recolor the grandparent RED and the parent BLACK before rotating;
the left-right and right-left branches rotate first, mutating nothing). -/
def recolor_case3 (t : NTree) (rp : RPath) : Err × NTree :=
  match t.subR rp with
  | .nil => (.assertionError, t)    -- assert isinstance(start_node, self._basic_node)
  | .node nd _ _ _ =>
    match rp with
    | [] => (.attributeError, t)    -- parent is None: `None.is_left_child()`
    | [_] => (.attributeError, t)   -- parent is the root: `is_left_child` reads `None.get_data()`
    | _ :: d2 :: rest =>
      match t.subR (d2 :: rest), t.subR rest with
      | .node pd _ _ _, .node gd _ _ _ =>
        match pyGt gd pd with       -- parent.is_left_child()
        | .error e => (e, t)
        | .ok pl =>
          match pyGt pd nd with     -- start_node.is_left_child()
          | .error e => (e, t)
          | .ok nl =>
            if pl && nl then
              -- grandparent.set_color(RED); parent.set_color(BLACK)
              let t1 := t.setColorAtR rest .red
              let t2 := t1.setColorAtR (d2 :: rest) .black
              (.attributeError, t2)     -- self._rotate_right(grandparent)
            else if pl && !nl then
              (.attributeError, t)      -- parent = self._rotate_left(parent)
            else if !pl && nl then
              (.attributeError, t)      -- parent = self._rotate_right(parent)
            else
              -- grandparent.set_color(RED); parent.set_color(BLACK)
              let t1 := t.setColorAtR rest .red
              let t2 := t1.setColorAtR (d2 :: rest) .black
              (.attributeError, t2)     -- self._rotate_left(grandparent)
      | _, _ => (.attributeError, t)  -- unreachable: every prefix of a node's path is a node

/-- `BasicNode.get_uncle` (`ma_node.py` lines 191-216) for the node at `rp`:
`None` when there is no parent or no grandparent; otherwise the grandparent's
right child if `parent.is_left_child()` (a value comparison that can raise
`TypeError`), else its left child.  Returns the uncle's innermost-first path;
the node there may be `nil` (Python `None`). -/
def get_uncle (t : NTree) (rp : RPath) : Except Err (Option RPath) :=
  match rp with
  | [] => .ok none
  | [_] => .ok none
  | _ :: d2 :: rest =>
    match t.subR (d2 :: rest), t.subR rest with
    | .node pd _ _ _, .node gd _ _ _ =>
      match pyGt gd pd with         -- parent.is_left_child()
      | .error e => .error e
      | .ok pl => .ok (some ((if pl then Dir.R else Dir.L) :: rest))
    | _, _ => .error .attributeError  -- unreachable: prefixes of a node path are nodes

/-- `RBT._recolor` (`ma_tree.py` lines 391-454), on the node at the
innermost-first path `rp` of the tree `t` (whose root is `self.root`).
Returns the path of the node the source returns — always `[]`, i.e. the root:
the two terminal branches return `start_node` (then the root itself) or
`parent` (the root), and case I returns `self.root` — paired with the tree as
mutated so far.  Case II recolors parent/uncle BLACK and grandparent RED and
recurses at the grandparent (`rest`); case III calls `__recolor_case3`, which
always raises, so the subsequent great-grandparent reattachment and recursion
(lines 445-454) are unreachable and the error propagates. -/
def recolor (t : NTree) (rp : RPath) : Except Err RPath × NTree :=
  match rp with
  | [] =>
    match t.subR [] with
    | .nil => (.error .assertionError, t)  -- assert isinstance(start_node, self._basic_node)
    | .node _ _ _ _ => (.ok [], t)   -- parent is None: return start_node (the root)
  | [d] =>
    match t.subR [d] with
    | .nil => (.error .assertionError, t)  -- assert isinstance(start_node, self._basic_node)
    | .node _ _ _ _ => (.ok [], t)   -- grandparent is None: return parent (the root)
  | d1 :: d2 :: rest =>
    match t.subR (d1 :: d2 :: rest) with
    | .nil => (.error .assertionError, t)  -- assert isinstance(start_node, self._basic_node)
    | .node _ _ _ _ =>
      -- uncle = start_node.get_uncle() (evaluated before the terminal checks)
      match get_uncle t (d1 :: d2 :: rest) with
      | .error e => (.error e, t)
      | .ok uncleOpt =>
        match t.subR (d2 :: rest) with
        | .nil => (.error .attributeError, t)  -- unreachable: parent of a node is a node
        | .node _ pc _ _ =>
          if pc = .black then
            (.ok [], t)          -- case I: return self.root
          else
            match uncleOpt with
            | some urp =>
              match t.subR urp with
              | .node _ uc _ _ =>
                if uc = .red then
                  -- case II: parent.set_color(BLACK); uncle.set_color(BLACK);
                  -- grandparent.set_color(RED); return self._recolor(grandparent)
                  recolor
                    (((t.setColorAtR (d2 :: rest) .black).setColorAtR urp .black).setColorAtR
                      rest .red)
                    rest
                else
                  (.error (recolor_case3 t (d1 :: d2 :: rest)).1,
                   (recolor_case3 t (d1 :: d2 :: rest)).2)
              | .nil =>
                -- `if uncle and ...`: a missing uncle (None) falls to case III
                (.error (recolor_case3 t (d1 :: d2 :: rest)).1,
                 (recolor_case3 t (d1 :: d2 :: rest)).2)
            | none =>
              (.error (recolor_case3 t (d1 :: d2 :: rest)).1,
               (recolor_case3 t (d1 :: d2 :: rest)).2)

/-- `RBT.insert` (`ma_tree.py` lines 200-245).  `None` raises `ValueError`;
on an empty tree the value is passed to the `BasicNode` constructor (which
runs `adjudging` — so a `str` or an `RBT` instance is *accepted* and stored),
the root is recolored BLACK and `_length` incremented; on a non-empty tree
`_insert` asserts `type(value) in (int, float) or isinstance(value,
BasicNode)` (`AssertionError` otherwise), `_insert_numeric` builds a fresh RED
node and `_insert_node` attaches it (or warns on a duplicate), after which
`self.root = self._recolor(new_node)` and the root is forced BLACK. -/
def RBT.insert (s : RBTState) (value : PyVal) : Except Err Unit × RBTState :=
  if value = .vnone then
    (.error .valueError, s)
  else if s.is_empty then
    match adjudging value with
    | .error e => (.error e, s)
    | .ok _ =>
      -- self.root = self._basic_node(value)  (fresh node, default RED)
      -- self.root.set_color(Color.BLACK); self._length += 1
      (.ok (), { s with
                 root := (NTree.node value .red .nil .nil).setColorAt [] .black
                 length := s.length + 1 })
  else
    match value with
    | .vint _ =>
      -- _insert_numeric: BasicNode(value) runs adjudging (passes for a number)
      match insert_node s.root value with
      | .error e => (.error e, s)
      | .ok (t1, p, inc, w) =>
        let s1 : RBTState :=
          { root := t1
            length := s.length + (if inc then 1 else 0)
            warnings := if w then s.warnings ++ [value] else s.warnings }
        match recolor t1 p.reverse with
        | (.error e, t2) => (.error e, { s1 with root := t2 })
        | (.ok q, t2) =>
          -- self.root = self._recolor(new_node); self.root.set_color(BLACK)
          (.ok (), { s1 with root := (t2.subR q).setColorAt [] .black })
    | _ => (.error .assertionError, s)

/-- Runs a sequence of `insert` calls, each applied to the state left by the
previous call whether or not it raised (raised exceptions assumed caught by
the caller), collecting each call's outcome. -/
def runInserts : RBTState → List PyVal → List (Except Err Unit) × RBTState
  | s, [] => ([], s)
  | s, v :: vs =>
    let rs := RBT.insert s v
    let rest := runInserts rs.2 vs
    (rs.1 :: rest.1, rest.2)

/-! ## Specification-side predicates: the four red-black invariants -/

/-- The color of a tree's root; a null leaf position counts as BLACK. -/
def NTree.rootColor : NTree → Color
  | .nil => .black
  | .node _ c _ _ => c

/-- Invariant (2): no RED node has a RED child. -/
def noRedRed : NTree → Bool
  | .nil => true
  | .node _ c l r =>
    (c != .red || (l.rootColor != .red && r.rootColor != .red)) &&
      noRedRed l && noRedRed r

/-- The number of BLACK nodes (the root included) on each path from the root
to a null leaf position, listed left to right. -/
def blackCounts : NTree → List Nat
  | .nil => [0]
  | .node _ c l r =>
    (blackCounts l ++ blackCounts r).map (fun k => k + (if c = .black then 1 else 0))

/-- Invariant (3): every root-to-null-leaf path has the same BLACK count. -/
def uniformBlack (t : NTree) : Bool :=
  match blackCounts t with
  | [] => true
  | k :: ks => ks.all (· == k)

/-- Invariant (4) over integer-valued trees: a valid binary search tree, all
data within the (optional) open bounds. -/
def isBSTB : NTree → Option Int → Option Int → Bool
  | .nil, _, _ => true
  | .node (.vint d) _ l r, lo, hi =>
    (match lo with | none => true | some a => decide (a < d)) &&
      (match hi with | none => true | some b => decide (d < b)) &&
      isBSTB l lo (some d) && isBSTB r (some d) hi
  | .node _ _ _ _, _, _ => false

/-- Every stored value is an `int`. -/
def allInt : NTree → Bool
  | .nil => true
  | .node (.vint _) _ l r => allInt l && allInt r
  | .node _ _ _ _ => false

/-- Membership of the integer `n` among the stored values. -/
def containsInt : NTree → Int → Bool
  | .nil, _ => false
  | .node d _ l r, n => d == .vint n || containsInt l n || containsInt r n

/-- All four red-black invariants of §3 of the spec: BLACK root, no RED node
with a RED child, uniform BLACK count on root-to-null-leaf paths, valid BST. -/
def isRBT (t : NTree) : Bool :=
  t.rootColor == .black && noRedRed t && uniformBlack t && isBSTB t none none

/-- Phase-less view of a tree: shape and stored values with colors erased. -/
def eraseColors : NTree → NTree
  | .nil => .nil
  | .node d _ l r => .node d .red (eraseColors l) (eraseColors r)

/-! ## The `BasicNode.swap` model -/

/-- A standalone `BasicNode` object for the `swap` claim: `_data` and
`_color` together with the three link fields (`_left`, `_right`, `_parent`),
the links modelled as opaque references. -/
structure BNode where
  data : PyVal
  color : Color
  left : Option Nat
  right : Option Nat
  parent : Option Nat
  deriving DecidableEq, Repr

/-- `BasicNode.swap` (`ma_node.py` lines 326-357): after the `isinstance`
guard (which cannot fire here, both arguments being nodes by type), the two
simultaneous assignments exchange `_data` and `_color` of the two nodes; no
link field is touched.  Aliasing (`swap(x, x)`) leaves the node unchanged in
Python and agrees with this model at `a = b`. -/
def BasicNode.swap (a b : BNode) : BNode × BNode :=
  ({ a with data := b.data, color := b.color },
   { b with data := a.data, color := a.color })

/-- `RBTState`s reachable from a fresh `RBT()` by a sequence of `insert`
calls, keeping each call's resulting state whether or not the call raised. -/
inductive Reachable : RBTState → Prop where
  | init : Reachable initState
  | step (s : RBTState) (v : PyVal) : Reachable s → Reachable (RBT.insert s v).2

/-! ## Concrete states used by the claims -/

/-- The state built by inserting `[13, 8, 17, 1, 11, 15, 25, 6]` (the
docstring example of `RBT.__init__`). -/
def demoState : RBTState :=
  (runInserts initState
    [.vint 13, .vint 8, .vint 17, .vint 1, .vint 11, .vint 15, .vint 25, .vint 6]).2

/-- The state built by inserting `[13, 8, 17, 1, 11, 15, 25, 6, 14]`; node
`8` is RED here and node `11` (whose parent is the RED `8` and whose uncle is
the RED `17`) is present, so a duplicate insertion of `11` exercises the
case II recoloring of `_recolor`. -/
def dupDemoState : RBTState :=
  (runInserts initState
    [.vint 13, .vint 8, .vint 17, .vint 1, .vint 11, .vint 15, .vint 25, .vint 6,
     .vint 14]).2

/-! ## Claim theorems -/

/-- C1: the claim fails on the code.  Inserting the distinct values
`[10, 5, 1, 15]` one by one into an empty `RBT`: the first two calls complete;
`insert(1)` reaches case III and raises `AttributeError` (no `set_parent`
method) after recoloring `10` RED and `5` BLACK; `insert(15)` then completes
normally (`.ok`), yet the resulting tree violates the equal-black-count
invariant (left paths pass 2 BLACK nodes, the right path 1), so it is not a
valid red-black tree after a completed `insert`. -/
theorem C1_completed_insert_breaks_invariants :
    (runInserts initState [.vint 10, .vint 5, .vint 1, .vint 15]).1
      = [.ok (), .ok (), .error .attributeError, .ok ()] ∧
    blackCounts (runInserts initState [.vint 10, .vint 5, .vint 1, .vint 15]).2.root
      = [2, 2, 2, 1, 1] ∧
    uniformBlack (runInserts initState [.vint 10, .vint 5, .vint 1, .vint 15]).2.root
      = false ∧
    isRBT (runInserts initState [.vint 10, .vint 5, .vint 1, .vint 15]).2.root
      = false := by
  refine ⟨rfl, rfl, rfl, rfl⟩

/-- C2: the claim fails on the code.  Inserting `[1, 2, 3]`: the third
insertion enters the Case III right-right branch, which recolors `1` RED and
`2` BLACK and then calls `_rotate_left`, raising `AttributeError` (`BasicNode`
has no `set_parent`).  No rotation happens: the root still holds `1` (now
RED), not `2`. -/
theorem C2_ascending_crashes_in_case3 :
    (runInserts initState [.vint 1, .vint 2, .vint 3]).1
      = [.ok (), .ok (), .error .attributeError] ∧
    (runInserts initState [.vint 1, .vint 2, .vint 3]).2.root
      = .node (.vint 1) .red .nil
          (.node (.vint 2) .black .nil (.node (.vint 3) .red .nil .nil)) := by
  refine ⟨rfl, rfl⟩

/-- C4 counterexample: after inserting `[13, 8, 17, 1, 11, 15, 25, 6]` the
root's left child holds `8` but is RED, not BLACK as the claim states (the
source's own docstring draws `8|R`). -/
theorem C4_eight_is_red :
    NTree.dataAt demoState.root [.L] = some (.vint 8) ∧
    NTree.colorAt demoState.root [.L] = some .red ∧
    ¬ NTree.colorAt demoState.root [.L] = some .black := by
  refine ⟨rfl, rfl, by decide⟩

/-- C4 amended: inserting `[13, 8, 17, 1, 11, 15, 25, 6]` in that order
succeeds at every step and yields root `13` BLACK with a RED `8` and a BLACK
`17` as children, `1` and `11` BLACK under `8` (with `6` RED under `1`), `15`
and `25` RED under `17`, and a uniform count of 2 BLACK nodes on every path
from the root to a null leaf. -/
theorem C4_amended_structure :
    (runInserts initState
      [.vint 13, .vint 8, .vint 17, .vint 1, .vint 11, .vint 15, .vint 25, .vint 6]).1
      = List.replicate 8 (.ok ()) ∧
    demoState.root
      = .node (.vint 13) .black
          (.node (.vint 8) .red
            (.node (.vint 1) .black .nil (.node (.vint 6) .red .nil .nil))
            (.node (.vint 11) .black .nil .nil))
          (.node (.vint 17) .black
            (.node (.vint 15) .red .nil .nil)
            (.node (.vint 25) .red .nil .nil)) ∧
    demoState.length = 8 ∧
    blackCounts demoState.root = List.replicate 9 2 ∧
    isRBT demoState.root = true := by
  refine ⟨rfl, rfl, rfl, rfl, rfl⟩

/-- C3 counterexample: `dupDemoState` contains `11`; inserting `11` again
completes (with the duplicate warning recorded) and leaves `_length` at 9,
but it recolors nodes: the node `8` at the root's left is RED before the call
and BLACK after it, so a duplicate insertion does alter colors. -/
theorem C3_duplicate_recolors :
    containsInt dupDemoState.root 11 = true ∧
    (RBT.insert dupDemoState (.vint 11)).1 = .ok () ∧
    (RBT.insert dupDemoState (.vint 11)).2.length = dupDemoState.length ∧
    (RBT.insert dupDemoState (.vint 11)).2.warnings = [.vint 11] ∧
    NTree.dataAt dupDemoState.root [.L] = some (.vint 8) ∧
    NTree.colorAt dupDemoState.root [.L] = some .red ∧
    NTree.colorAt (RBT.insert dupDemoState (.vint 11)).2.root [.L] = some .black := by
  refine ⟨rfl, rfl, rfl, rfl, rfl, rfl, rfl⟩

/-- C5: the claim fails on the code.  Inserting the string `"abc"` (neither a
number nor a `BasicNode`) into an *empty* `RBT` raises nothing at all: the
value passes `adjudging` and is stored as the BLACK root with `_length = 1`.
On a non-empty tree the same call raises `AssertionError` (from the `assert`
in `_insert`), not `TypeError` as the docstring of `insert` promises. -/
theorem C5_string_accepted_on_empty_tree :
    RBT.insert initState (.vstr "abc")
      = (.ok (), ⟨.node (.vstr "abc") .black .nil .nil, 1, []⟩) ∧
    (RBT.insert ⟨.node (.vint 10) .black .nil .nil, 1, []⟩ (.vstr "abc")).1
      = .error .assertionError := by
  refine ⟨rfl, rfl⟩

/-- C6: the claim fails on the code.  `_rotate_left` on a subtree root with a
right child raises `AttributeError` immediately (`BasicNode` has no
`set_parent` method), as does `_rotate_right` on a subtree root with a left
child, so neither rotation ever completes and the inverse round-trip never
happens. -/
theorem C6_rotations_raise :
    rotate_left (.node (.vint 1) .black .nil (.node (.vint 2) .red .nil .nil))
      = .error .attributeError ∧
    rotate_right (.node (.vint 2) .black (.node (.vint 1) .red .nil .nil) .nil)
      = .error .attributeError := by
  refine ⟨rfl, rfl⟩

/-- C7: the claim fails on the code.  `RBT` does not inherit from
`HouseOfHades`, so an `RBT` instance passes `adjudging`; inserting an `RBT`
object into an empty `RBT` stores the tree object as the root's `_data`
(`RBT([RBT([1])])` builds exactly this state), contradicting the guard the
claim describes and the docstring's promised `TypeError`. -/
theorem C7_nested_tree_stored :
    adjudging .vtreeObj = .ok () ∧
    RBT.insert initState .vtreeObj
      = (.ok (), ⟨.node .vtreeObj .black .nil .nil, 1, []⟩) := by
  refine ⟨rfl, rfl⟩

/-! ## Structural lemmas about recoloring -/

theorem eraseColors_setColorAt (t : NTree) (p : List Dir) (c : Color) :
    eraseColors (t.setColorAt p c) = eraseColors t := by
  induction t generalizing p with
  | nil => cases p <;> rfl
  | node d c0 l r ihl ihr =>
    cases p with
    | nil => rfl
    | cons dd p => cases dd <;> simp [NTree.setColorAt, eraseColors, ihl, ihr]

theorem eraseColors_setColorAtR (t : NTree) (rp : RPath) (c : Color) :
    eraseColors (t.setColorAtR rp c) = eraseColors t :=
  eraseColors_setColorAt t rp.reverse c

theorem eraseColors_eq_nil_iff (t : NTree) : eraseColors t = .nil ↔ t = .nil := by
  cases t <;> simp [eraseColors]

/-- `__recolor_case3` only recolors: the color-erased tree is unchanged. -/
theorem recolor_case3_snd (t : NTree) (rp : RPath) :
    eraseColors (recolor_case3 t rp).2 = eraseColors t := by
  unfold recolor_case3
  repeat' split
  all_goals simp [eraseColors_setColorAtR]

/-- `_recolor` only recolors: the color-erased tree is unchanged. -/
theorem recolor_snd (t : NTree) (rp : RPath) :
    eraseColors (recolor t rp).2 = eraseColors t := by
  induction t, rp using recolor.induct with
  | _ =>
    try simp only [recolor]
    repeat' split
    all_goals simp_all [recolor_case3_snd, eraseColors_setColorAtR]

/-- `_recolor` never returns a non-root node: every `.ok` outcome carries the
path `[]` (the two terminal branches and case I all return the root, and case
II recurses). -/
theorem recolor_fst (t : NTree) (rp : RPath) :
    (recolor t rp).1 = .ok [] ∨ ∃ e, (recolor t rp).1 = .error e := by
  induction t, rp using recolor.induct with
  | _ =>
    try simp only [recolor]
    repeat' split
    all_goals first
      | assumption
      | exact Or.inl rfl
      | exact Or.inr ⟨_, rfl⟩
      | simp_all

/-- Defining equation of `insert_node` at a node (stated by hand: the
automatic unfold-lemma generation does not handle this match shape). -/
theorem insert_node_node (d : PyVal) (c : Color) (l r : NTree) (v : PyVal) :
    insert_node (.node d c l r) v =
      match pyEq v d with
      | true => .ok (.node d c l r, [], false, true)
      | false =>
        match pyLt v d with
        | .error e => .error e
        | .ok true =>
          match l with
          | .nil => .ok (.node d c (.node v .red .nil .nil) r, [.L], true, false)
          | .node _ _ _ _ =>
            match insert_node l v with
            | .error e => .error e
            | .ok (l', p, inc, w) => .ok (.node d c l' r, .L :: p, inc, w)
        | .ok false =>
          match r with
          | .nil => .ok (.node d c l (.node v .red .nil .nil), [.R], true, false)
          | .node _ _ _ _ =>
            match insert_node r v with
            | .error e => .error e
            | .ok (r', p, inc, w) => .ok (.node d c l r', .R :: p, inc, w) := rfl

/-- A successful `_insert_node` returns a non-empty subtree. -/
theorem insert_node_ok_ne_nil (t : NTree) (v : PyVal)
    (res : NTree × List Dir × Bool × Bool) (h : insert_node t v = .ok res) :
    res.1 ≠ .nil := by
  cases t with
  | nil => simp [insert_node] at h
  | node d c l r =>
    rw [insert_node_node] at h
    repeat' split at h
    all_goals cases h <;> simp

theorem containsInt_eraseColors (t : NTree) (n : Int) :
    containsInt (eraseColors t) n = containsInt t n := by
  induction t <;> simp [eraseColors, containsInt, *]

theorem containsInt_congr_eraseColors (a b : NTree)
    (h : eraseColors a = eraseColors b) (n : Int) :
    containsInt a n = containsInt b n := by
  rw [← containsInt_eraseColors a, h, containsInt_eraseColors]

theorem nil_iff_of_eraseColors_eq (a b : NTree) (h : eraseColors a = eraseColors b) :
    a = .nil ↔ b = .nil := by
  rw [← eraseColors_eq_nil_iff, h, eraseColors_eq_nil_iff]

/-- Every value contained in a bounded BST lies strictly within the bounds. -/
theorem bst_mem_bounds (t : NTree) (n : Int) :
    ∀ (lo hi : Option Int), isBSTB t lo hi = true → containsInt t n = true →
      (∀ a, lo = some a → a < n) ∧ (∀ b, hi = some b → n < b) := by
  induction t with
  | nil => intro lo hi _ hc; simp [containsInt] at hc
  | node d c l r ihl ihr =>
    intro lo hi hb hc
    cases d with
    | vnone => simp [isBSTB] at hb
    | vstr sv => simp [isBSTB] at hb
    | vtreeObj => simp [isBSTB] at hb
    | vint m =>
      simp only [isBSTB, Bool.and_eq_true] at hb
      obtain ⟨⟨⟨hlo, hhi⟩, hbl⟩, hbr⟩ := hb
      have hlo' : ∀ a, lo = some a → a < m := by
        intro a ha; subst ha; simpa using hlo
      have hhi' : ∀ b, hi = some b → m < b := by
        intro b hbnd; subst hbnd; simpa using hhi
      simp only [containsInt, Bool.or_eq_true, beq_iff_eq] at hc
      rcases hc with (h1 | h2) | h3
      · cases h1
        exact ⟨hlo', hhi'⟩
      · obtain ⟨hl1, hl2⟩ := ihl lo (some m) hbl h2
        have hnm : n < m := hl2 m rfl
        refine ⟨hl1, fun b hbnd => ?_⟩
        have := hhi' b hbnd
        omega
      · obtain ⟨hr1, hr2⟩ := ihr (some m) hi hbr h3
        have hmn : m < n := hr1 m rfl
        refine ⟨fun a ha => ?_, hr2⟩
        have := hlo' a ha
        omega

/-- On a BST that already contains `n`, `_insert_node` finds the equal node:
the subtree is returned unchanged, no length increment, and the duplicate
warning fires. -/
theorem insert_node_dup (t : NTree) (n : Int) :
    ∀ (lo hi : Option Int), isBSTB t lo hi = true → containsInt t n = true →
      ∃ p, insert_node t (.vint n) = .ok (t, p, false, true) := by
  induction t with
  | nil => intro lo hi _ hc; simp [containsInt] at hc
  | node d c l r ihl ihr =>
    intro lo hi hb hc
    cases d with
    | vnone => simp [isBSTB] at hb
    | vstr sv => simp [isBSTB] at hb
    | vtreeObj => simp [isBSTB] at hb
    | vint m =>
      simp only [isBSTB, Bool.and_eq_true] at hb
      obtain ⟨⟨⟨hlo, hhi⟩, hbl⟩, hbr⟩ := hb
      by_cases hnm : n = m
      · subst hnm
        refine ⟨[], ?_⟩
        rw [insert_node_node]
        simp [pyEq]
      · have hpe : pyEq (.vint n) (.vint m) = false := by
          simp [pyEq]
          omega
        simp only [containsInt, Bool.or_eq_true, beq_iff_eq] at hc
        rcases hc with (h1 | h2) | h3
        · injection h1 with h1
          omega
        · have hnlt : n < m := (bst_mem_bounds l n lo (some m) hbl h2).2 m rfl
          have hplt : pyLt (.vint n) (.vint m) = .ok true := by
            simp [pyLt, hnlt]
          cases l with
          | nil => simp [containsInt] at h2
          | node dl cl ll rl =>
            obtain ⟨p, hp⟩ := ihl lo (some m) hbl h2
            refine ⟨.L :: p, ?_⟩
            simp only [insert_node_node, hpe, hplt, hp]
        · have hmlt : m < n := (bst_mem_bounds r n (some m) hi hbr h3).1 m rfl
          have hplt : pyLt (.vint n) (.vint m) = .ok false := by
            have : ¬ n < m := by omega
            simp [pyLt, this]
          cases r with
          | nil => simp [containsInt] at h3
          | node dr cr lr rr =>
            obtain ⟨p, hp⟩ := ihr (some m) hi hbr h3
            refine ⟨.R :: p, ?_⟩
            simp only [insert_node_node, hpe, hplt, hp]

/-- On a non-empty all-int tree not containing `n`, `_insert_node` attaches a
fresh RED node holding `n`: the length increments, no warning fires, and the
result contains `n`. -/
theorem insert_node_fresh (t : NTree) (n : Int)
    (ha : allInt t = true) (hc : containsInt t n = false) (hne : t ≠ .nil) :
    ∃ t' p, insert_node t (.vint n) = .ok (t', p, true, false) ∧
      containsInt t' n = true := by
  induction t with
  | nil => exact absurd rfl hne
  | node d c l r ihl ihr =>
    cases d with
    | vnone => simp [allInt] at ha
    | vstr sv => simp [allInt] at ha
    | vtreeObj => simp [allInt] at ha
    | vint m =>
      simp only [allInt, Bool.and_eq_true] at ha
      obtain ⟨hal, har⟩ := ha
      simp only [containsInt, Bool.or_eq_false_iff, beq_eq_false_iff_ne] at hc
      obtain ⟨⟨hd, hcl⟩, hcr⟩ := hc
      have hnm : n ≠ m := by
        intro h
        exact hd (by rw [h])
      have hpe : pyEq (.vint n) (.vint m) = false := by
        simp [pyEq]
        omega
      by_cases hlt : n < m
      · have hplt : pyLt (.vint n) (.vint m) = .ok true := by
          simp [pyLt, hlt]
        cases l with
        | nil =>
          refine ⟨.node (.vint m) c (.node (.vint n) .red .nil .nil) r, [.L], ?_, ?_⟩
          · simp only [insert_node_node, hpe, hplt]
          · simp [containsInt]
        | node dl cl ll rl =>
          obtain ⟨l', p, hp, hcl'⟩ := ihl hal hcl (by simp)
          refine ⟨.node (.vint m) c l' r, .L :: p, ?_, ?_⟩
          · simp only [insert_node_node, hpe, hplt, hp]
          · simp [containsInt, hcl']
      · have hplt : pyLt (.vint n) (.vint m) = .ok false := by
          simp [pyLt, hlt]
        cases r with
        | nil =>
          refine ⟨.node (.vint m) c l (.node (.vint n) .red .nil .nil), [.R], ?_, ?_⟩
          · simp only [insert_node_node, hpe, hplt]
          · simp [containsInt]
        | node dr cr lr rr =>
          obtain ⟨r', p, hp, hcr'⟩ := ihr har hcr (by simp)
          refine ⟨.node (.vint m) c l r', .R :: p, ?_, ?_⟩
          · simp only [insert_node_node, hpe, hplt, hp]
          · simp [containsInt, hcr']

/-- `RBT.insert` on a non-empty tree with a number, when `_insert_node`
succeeds and `_recolor` raises: the mutated tree, the already-updated length
and the warnings are kept (no rollback). -/
theorem insert_run_err (root t1 t2 : NTree) (len : Nat) (ws : List PyVal) (n : Int)
    (p : List Dir) (inc w : Bool) (e : Err)
    (hroot : root ≠ .nil)
    (hp : insert_node root (.vint n) = .ok (t1, p, inc, w))
    (hr : recolor t1 p.reverse = (.error e, t2)) :
    RBT.insert ⟨root, len, ws⟩ (.vint n) =
      (.error e,
       ⟨t2, len + (if inc then 1 else 0), if w then ws ++ [.vint n] else ws⟩) := by
  cases root with
  | nil => exact absurd rfl hroot
  | node d c l r => simp [RBT.insert, RBTState.is_empty, hp, hr]

/-- `RBT.insert` on a non-empty tree with a number, when `_insert_node`
succeeds and `_recolor` returns a node: the root is re-pinned to the returned
node and forced BLACK. -/
theorem insert_run_ok (root t1 t2 : NTree) (len : Nat) (ws : List PyVal) (n : Int)
    (p q : List Dir) (inc w : Bool)
    (hroot : root ≠ .nil)
    (hp : insert_node root (.vint n) = .ok (t1, p, inc, w))
    (hr : recolor t1 p.reverse = (.ok q, t2)) :
    RBT.insert ⟨root, len, ws⟩ (.vint n) =
      (.ok (),
       ⟨(t2.subR q).setColorAt [] .black,
        len + (if inc then 1 else 0), if w then ws ++ [.vint n] else ws⟩) := by
  cases root with
  | nil => exact absurd rfl hroot
  | node d c l r => simp [RBT.insert, RBTState.is_empty, hp, hr]

theorem len_add_ite_ne_zero (len : Nat) (inc : Bool) (h : len ≠ 0) :
    len + (if inc then 1 else 0) ≠ 0 := by
  cases inc <;> simp_all

/-- One `insert` call keeps `root is None` and `_length == 0` equivalent. -/
theorem insert_keeps_sync (s : RBTState) (v : PyVal)
    (h : s.root = .nil ↔ s.length = 0) :
    ((RBT.insert s v).2.root = .nil ↔ (RBT.insert s v).2.length = 0) := by
  obtain ⟨root, len, ws⟩ := s
  by_cases hv : v = .vnone
  · subst hv
    simpa [RBT.insert] using h
  · cases root with
    | nil =>
      cases v with
      | vnone => exact absurd rfl hv
      | vint m => simp [RBT.insert, RBTState.is_empty, adjudging, NTree.setColorAt]
      | vstr sv => simp [RBT.insert, RBTState.is_empty, adjudging, NTree.setColorAt]
      | vtreeObj => simp [RBT.insert, RBTState.is_empty, adjudging, NTree.setColorAt]
    | node d c l r =>
      have hlen : len ≠ 0 := by
        intro h0
        exact absurd (h.mpr h0) (by simp)
      cases v with
      | vnone => exact absurd rfl hv
      | vstr sv => simp [RBT.insert, RBTState.is_empty, hlen]
      | vtreeObj => simp [RBT.insert, RBTState.is_empty, hlen]
      | vint m =>
        rcases hins : insert_node (.node d c l r) (.vint m) with e | ⟨t1, p, inc, w⟩
        · simp [RBT.insert, RBTState.is_empty, hins, hlen]
        · have ht1 : t1 ≠ .nil := insert_node_ok_ne_nil _ _ _ hins
          rcases hrec : recolor t1 p.reverse with ⟨r1, t2⟩
          have hsnd := recolor_snd t1 p.reverse
          rw [hrec] at hsnd
          have ht2 : t2 ≠ .nil := fun h2 =>
            ht1 ((nil_iff_of_eraseColors_eq t2 t1 hsnd).mp h2)
          cases r1 with
          | error e =>
            rw [insert_run_err (.node d c l r) t1 t2 len ws m p inc w e (by simp)
              hins hrec]
            simp [ht2, len_add_ite_ne_zero len inc hlen]
          | ok q =>
            have hq : q = [] := by
              rcases recolor_fst t1 p.reverse with hfst | ⟨e, hfst⟩ <;> rw [hrec] at hfst <;>
                simp_all
            subst hq
            rw [insert_run_ok (.node d c l r) t1 t2 len ws m p [] inc w (by simp)
              hins hrec]
            cases t2 with
            | nil => exact absurd rfl ht2
            | node d2 c2 l2 r2 =>
              simp [NTree.subR, NTree.sub, NTree.setColorAt,
                len_add_ite_ne_zero len inc hlen]

/-- C3 amended: inserting a value already contained in an integer BST emits
the duplicate warning and leaves `_length` and the tree's shape and stored
values unchanged — but node colors may be recolored (the call runs `_recolor`
from the existing node) and the call may even raise instead of returning. -/
theorem C3_amended_duplicate (s : RBTState) (n : Int)
    (hb : isBSTB s.root none none = true)
    (hc : containsInt s.root n = true) :
    (RBT.insert s (.vint n)).2.length = s.length ∧
    eraseColors (RBT.insert s (.vint n)).2.root = eraseColors s.root ∧
    (RBT.insert s (.vint n)).2.warnings = s.warnings ++ [.vint n] := by
  obtain ⟨root, len, ws⟩ := s
  have hroot : root ≠ .nil := by
    intro h
    rw [h] at hc
    simp [containsInt] at hc
  obtain ⟨p, hp⟩ := insert_node_dup root n none none hb hc
  have hsnd := recolor_snd root p.reverse
  rcases hrec : recolor root p.reverse with ⟨r1, t2⟩
  rw [hrec] at hsnd
  cases r1 with
  | error e =>
    rw [insert_run_err root root t2 len ws n p false true e hroot hp hrec]
    simpa using hsnd
  | ok q =>
    have hq : q = [] := by
      rcases recolor_fst root p.reverse with hfst | ⟨e, hfst⟩ <;> rw [hrec] at hfst <;>
        simp_all
    subst hq
    rw [insert_run_ok root root t2 len ws n p [] false true hroot hp hrec]
    refine ⟨by simp, ?_, by simp⟩
    have h2 : t2.subR [] = t2 := by cases t2 <;> rfl
    rw [h2, eraseColors_setColorAt]
    simpa using hsnd

/-- C3 amended, witness at `RBT([2])` (the spec scenario): inserting `2`
again leaves `length == 1`, keeps the shape, and records the warning. -/
theorem C3_amended_duplicate_witness :
    (isBSTB (NTree.node (.vint 2) .black .nil .nil) none none = true ∧
     containsInt (NTree.node (.vint 2) .black .nil .nil) 2 = true) ∧
    ((RBT.insert ⟨.node (.vint 2) .black .nil .nil, 1, []⟩ (.vint 2)).2.length = 1 ∧
     eraseColors (RBT.insert ⟨.node (.vint 2) .black .nil .nil, 1, []⟩ (.vint 2)).2.root
       = eraseColors (NTree.node (.vint 2) .black .nil .nil) ∧
     (RBT.insert ⟨.node (.vint 2) .black .nil .nil, 1, []⟩ (.vint 2)).2.warnings
       = [] ++ [.vint 2]) :=
  ⟨⟨by decide, by decide⟩,
   C3_amended_duplicate ⟨.node (.vint 2) .black .nil .nil, 1, []⟩ 2 (by decide) (by decide)⟩

/-- C8: in every state reachable from a fresh `RBT()` by `insert` calls,
`is_empty()` is true exactly when `_length == 0`, and exactly when
`root is None`: the three conditions are equivalent. -/
theorem C8_is_empty_sync (s : RBTState) (h : Reachable s) :
    (s.is_empty = true ↔ s.length = 0) ∧ (s.is_empty = true ↔ s.root = .nil) := by
  have key : s.root = .nil ↔ s.length = 0 := by
    induction h with
    | init => simp [initState]
    | step s' v hs ih => exact insert_keeps_sync s' v ih
  have he : s.is_empty = true ↔ s.root = .nil := by
    obtain ⟨root, len, ws⟩ := s
    cases root <;> simp [RBTState.is_empty]
  exact ⟨he.trans key, he⟩

/-- C8, witness: the state after one insertion into a fresh tree is
reachable, and the three emptiness conditions are equivalent there. -/
theorem C8_is_empty_sync_witness :
    Reachable (RBT.insert initState (.vint 5)).2 ∧
    (((RBT.insert initState (.vint 5)).2.is_empty = true ↔
        (RBT.insert initState (.vint 5)).2.length = 0) ∧
     ((RBT.insert initState (.vint 5)).2.is_empty = true ↔
        (RBT.insert initState (.vint 5)).2.root = .nil)) :=
  ⟨Reachable.step initState (.vint 5) Reachable.init,
   C8_is_empty_sync _ (Reachable.step initState (.vint 5) Reachable.init)⟩

/-- C9: `insert` of a fresh number into a non-empty all-int tree is not
atomic with respect to errors in `_recolor`: `_insert_node` links the new
node and increments `_length` first, so when the call raises, the resulting
state still holds the new value and the incremented count — no rollback. -/
theorem C9_no_rollback (s s2 : RBTState) (n : Int) (e : Err)
    (hne : s.root ≠ .nil) (ha : allInt s.root = true)
    (hc : containsInt s.root n = false)
    (h : RBT.insert s (.vint n) = (.error e, s2)) :
    s2.length = s.length + 1 ∧ containsInt s2.root n = true := by
  obtain ⟨root, len, ws⟩ := s
  obtain ⟨t1, p, hp, hc1⟩ := insert_node_fresh root n ha hc hne
  rcases hrec : recolor t1 p.reverse with ⟨r1, t2⟩
  have hsnd := recolor_snd t1 p.reverse
  rw [hrec] at hsnd
  cases r1 with
  | ok q =>
    rw [insert_run_ok root t1 t2 len ws n p q true false hne hp hrec] at h
    simp at h
  | error e2 =>
    rw [insert_run_err root t1 t2 len ws n p true false e2 hne hp hrec] at h
    injection h with h1 h2
    injection h1 with h1
    subst h2
    refine ⟨by simp, ?_⟩
    show containsInt t2 n = true
    rw [containsInt_congr_eraseColors t2 t1 (by simpa using hsnd) n]
    exact hc1

/-- C9, witness: inserting `3` into the tree built from `[1, 2]` raises
`AttributeError` during Case III, yet the final state has `_length = 3` and
contains `3`. -/
theorem C9_no_rollback_witness :
    RBT.insert ⟨.node (.vint 1) .black .nil (.node (.vint 2) .red .nil .nil), 2, []⟩
        (.vint 3)
      = (.error .attributeError,
         ⟨.node (.vint 1) .red .nil
            (.node (.vint 2) .black .nil (.node (.vint 3) .red .nil .nil)), 3, []⟩) ∧
    ((⟨.node (.vint 1) .red .nil
        (.node (.vint 2) .black .nil (.node (.vint 3) .red .nil .nil)), 3, []⟩ :
          RBTState).length
      = (⟨.node (.vint 1) .black .nil (.node (.vint 2) .red .nil .nil), 2, []⟩ :
          RBTState).length + 1 ∧
     containsInt (⟨.node (.vint 1) .red .nil
        (.node (.vint 2) .black .nil (.node (.vint 3) .red .nil .nil)), 3, []⟩ :
          RBTState).root 3 = true) :=
  ⟨rfl,
   C9_no_rollback
     ⟨.node (.vint 1) .black .nil (.node (.vint 2) .red .nil .nil), 2, []⟩
     ⟨.node (.vint 1) .red .nil
        (.node (.vint 2) .black .nil (.node (.vint 3) .red .nil .nil)), 3, []⟩
     3 .attributeError (by decide) (by decide) (by decide) rfl⟩

/-- C10: `BasicNode.swap` is an involution — applying it twice restores both
nodes' stored data and color — and a single application leaves every
`_left`/`_right`/`_parent` link of both nodes untouched. -/
theorem C10_swap_involution (a b : BNode) :
    BasicNode.swap (BasicNode.swap a b).1 (BasicNode.swap a b).2 = (a, b) ∧
    (BasicNode.swap a b).1.left = a.left ∧
    (BasicNode.swap a b).1.right = a.right ∧
    (BasicNode.swap a b).1.parent = a.parent ∧
    (BasicNode.swap a b).2.left = b.left ∧
    (BasicNode.swap a b).2.right = b.right ∧
    (BasicNode.swap a b).2.parent = b.parent := by
  refine ⟨?_, rfl, rfl, rfl, rfl, rfl, rfl⟩
  cases a
  cases b
  rfl
